import Mathlib

/-!
Shallow embedding of the `boba` terminal runtime (boba.go) and of the two
cancelable input-reader strategies (inputreader_select.go,
inputreader_linux.go), together with theorems settling the claims about
them.

Modelling conventions:
* Go channels delivering values to the single receiving main loop are
  modelled as the list of values sent, in send order; a send after the
  receiver has returned is never received.
* Syscall results (`select`, `epoll_wait`), the external byte decoder
  (`parseInputMsgFromReader` / `ReadKey`) and the pipe drain read are
  oracles passed in as explicit parameters, so every definition stays
  executable.
* Errors are plain strings mirroring the `fmt.Errorf` formats of the
  source; distinguished sentinel outcomes (cancellation, EINTR) are
  dedicated constructors, mirroring `errors.Is` dispatch in the source.
-/

/-- `Msg` (boba.go line 14): an open message value. `key` models `KeyMsg`,
`quit` models `quitMsg`, `batch` models `batchMsg` (a list of commands,
a command being `nil` or a thunk returning a `Msg`), and `custom`
stands for the arbitrary application-defined message variants. -/
inductive Msg : Type where
  | key (k : Nat) : Msg
  | quit : Msg
  | batch (cmds : List (Option (Unit → Msg))) : Msg
  | custom (n : Nat) : Msg

/-- `Cmd` (boba.go line 20): `func() Msg`, where the `nil` function value is
a no-op; modelled as `Option` of a thunk. -/
abbrev Cmd : Type := Option (Unit → Msg)

/-- `batchMsg` (boba.go line 60). -/
def batchMsg (cmds : List Cmd) : Msg := Msg.batch cmds

/-- `Batch` (boba.go lines 24-31): returns `nil` for an empty command list,
otherwise a command producing a `batchMsg` holding the given commands. -/
def Batch (cmds : List Cmd) : Cmd :=
  if cmds.length = 0 then none
  else some (fun _ => batchMsg cmds)

/-- One step of `strings.Replace(view, "\n", "\r\n", -1)`
(boba.go line 162), character by character. -/
def normalizeChars : List Char → List Char
  | [] => []
  | '\n' :: rest => '\r' :: '\n' :: normalizeChars rest
  | c :: rest => c :: normalizeChars rest

/-- `strings.Replace(view, "\n", "\r\n", -1)` (boba.go line 162). -/
def normalizeView (s : String) : String := ⟨normalizeChars s.data⟩

/-- Non-overlapping occurrence count of `"\r\n"` in a character list,
as computed by `strings.Count(view, "\r\n")` (boba.go line 168): scan
left to right, counting a match and skipping both characters when the
next two characters are `'\r'`, `'\n'`. -/
def countCRLF : List Char → Nat
  | c1 :: c2 :: rest =>
      if c1 = '\r' ∧ c2 = '\n' then countCRLF rest + 1
      else countCRLF (c2 :: rest)
  | _ => 0

/-- `strings.Count(view, "\r\n")` (boba.go line 168). -/
def countCRLFs (s : String) : Nat := countCRLF s.data

/-- Observable effect of one `Program.render` call: the argument passed to
`termenv.ClearLines` (`none` when the erase was skipped because the
recorded count was zero, boba.go lines 164-166) and the text written to
the output stream (boba.go line 167). -/
structure RenderStep where
  cleared : Option Nat
  written : String
deriving DecidableEq

/-- `Program.render` (boba.go lines 157-169): normalize the view text,
erase the previously recorded number of lines when positive, write the
text, and return the count of `"\r\n"` occurrences in the written text
as the new recorded value. -/
def render {M : Type} (vw : M → String) (model : M) (linesRendered : Nat) :
    RenderStep × Nat :=
  let view := normalizeView (vw model)
  (⟨if 0 < linesRendered then some linesRendered else none, view⟩,
   countCRLFs view)

/-- The number of lines a written piece of terminal text consists of,
following the claim's words (a second definition, for comparison with
the recorded count the code keeps): the count of segments separated by
the normalized line ending `"\r\n"`, so `"a\r\nb\r\nc"` has 3 lines. -/
def specLineSegments : List Char → Nat
  | c1 :: c2 :: rest =>
      if c1 = '\r' ∧ c2 = '\n' then specLineSegments rest + 1
      else specLineSegments (c2 :: rest)
  | _ => 1

/-- The claim-side line count of a written string; see `specLineSegments`. -/
def specLineCount (s : String) : Nat := specLineSegments s.data

/-- The command dispatcher goroutine (boba.go lines 112-125): for each
command received on the `cmds` channel, a new execution is spawned only
when the command is non-nil; nil commands are discarded on receipt.
The result lists, in spawn order, the thunks actually started. -/
def processCmds : List Cmd → List (Unit → Msg)
  | [] => []
  | none :: rest => processCmds rest
  | some c :: rest => c :: processCmds rest

/-- A send performed by a producer goroutine towards the main loop: either
on the `errs` channel (boba.go line 105) or on the `msgs` channel. -/
inductive Send : Type where
  | toErrs (e : String) : Send
  | toMsgs (m : Msg) : Send

/-- How a run of the main dispatch loop (boba.go lines 128-153) ended:
with `return err`, with `return nil` on a quit message, or still blocked
waiting for further channel activity. -/
inductive LoopResult : Type where
  | errored (e : String) : LoopResult
  | quitOk : LoopResult
  | pending : LoopResult

/-- Observable trace of a main-loop run: the messages passed to `p.update`
in order, the values sent on the `cmds` channel in order (nil included,
boba.go line 150), the render calls performed, whether `close(done)`
was executed, the loop outcome, and the final model and recorded line
count. -/
structure Trace (M : Type) where
  updates : List Msg
  enqueued : List Cmd
  renders : List RenderStep
  doneClosed : Bool
  result : LoopResult
  finalModel : M
  finalLines : Nat

/-- The main dispatch loop of `Program.Start` (boba.go lines 128-153),
run over the sequence of channel sends it receives, in order. On an
error: `close(done)` and return the error. On `quitMsg`: `close(done)`
and return nil. On `batchMsg`: send every contained command on `cmds`
in order and continue without updating or rendering. On any other
message: run `p.update`, send the returned command on `cmds`
unconditionally, render the new model, and continue. Sends after the
loop has returned are never received. -/
def runLoop {M : Type} (upd : Msg → M → M × Cmd) (vw : M → String) :
    M → Nat → List Send → Trace M
  | model, lines, [] =>
      { updates := [], enqueued := [], renders := [], doneClosed := false,
        result := .pending, finalModel := model, finalLines := lines }
  | model, lines, Send.toErrs e :: _ =>
      { updates := [], enqueued := [], renders := [], doneClosed := true,
        result := .errored e, finalModel := model, finalLines := lines }
  | model, lines, Send.toMsgs Msg.quit :: _ =>
      { updates := [], enqueued := [], renders := [], doneClosed := true,
        result := .quitOk, finalModel := model, finalLines := lines }
  | model, lines, Send.toMsgs (Msg.batch bs) :: rest =>
      let t := runLoop upd vw model lines rest
      { t with enqueued := bs ++ t.enqueued }
  | model, lines, Send.toMsgs (Msg.key k) :: rest =>
      let p := upd (Msg.key k) model
      let r := render vw p.1 lines
      let t := runLoop upd vw p.1 r.2 rest
      { t with updates := Msg.key k :: t.updates,
               enqueued := p.2 :: t.enqueued,
               renders := r.1 :: t.renders }
  | model, lines, Send.toMsgs (Msg.custom n) :: rest =>
      let p := upd (Msg.custom n) model
      let r := render vw p.1 lines
      let t := runLoop upd vw p.1 r.2 rest
      { t with updates := Msg.custom n :: t.updates,
               enqueued := p.2 :: t.enqueued,
               renders := r.1 :: t.renders }

/-- The deferred `restoreTerminal` of `Program.Start` (boba.go line 87)
runs exactly when `Start` returns, i.e. when the loop outcome is not
`pending`. -/
def terminalReleased : LoopResult → Bool
  | .pending => false
  | _ => true

/-- Outcome of one `ReadKey(os.Stdin)` call made by the input pump
(boba.go line 103): a decoded key, or a read error. -/
inductive ReadKeyOutcome : Type where
  | ok (k : Nat) : ReadKeyOutcome
  | fail (e : String) : ReadKeyOutcome

/-- The sends performed by the input pump goroutine (boba.go lines
101-109) for a sequence of `ReadKey` outcomes. On success, exactly one
`KeyMsg` is sent on `msgs`. On failure, the error is sent on `errs` and
then — because the loop body has no early continue — `KeyMsg(msg)` with
the zero-valued key is still sent on `msgs` before the pump loops. -/
def pumpSends : List ReadKeyOutcome → List Send
  | [] => []
  | ReadKeyOutcome.ok k :: rest => Send.toMsgs (Msg.key k) :: pumpSends rest
  | ReadKeyOutcome.fail e :: rest =>
      Send.toErrs e :: Send.toMsgs (Msg.key 0) :: pumpSends rest

/-- `unix.FD_SETSIZE`, the descriptor ceiling of the `select` bitmask. -/
def FD_SETSIZE : Nat := 1024

/-- Which reader strategy `newSelectInputReader` constructs. -/
inductive ReaderChoice : Type where
  | select : ReaderChoice
  | fallback : ReaderChoice
deriving DecidableEq

/-- `newSelectInputReader` (inputreader_select.go lines 23-38): falls back
to the non-cancelable reader when the input is not an `*os.File` or its
descriptor is at or above `FD_SETSIZE`. The cancel-signal pipe is
created only after this decision, so the decision depends only on the
input stream's kind and descriptor. -/
def newSelectInputReader (isFile : Bool) (readerFd : Nat) : ReaderChoice :=
  if !isFile || FD_SETSIZE ≤ readerFd then .fallback else .select

/-- Result of one `select` syscall as seen by `waitForRead`: interrupted
(`EINTR`), failed with another error, or returned with the readiness of
the abort (cancel-signal) and reader descriptors. -/
inductive SelectOutcome : Type where
  | eintr : SelectOutcome
  | selectErr (e : String) : SelectOutcome
  | ready (abortReady readerReady : Bool) : SelectOutcome

/-- Result of `waitForRead` (inputreader_select.go lines 109-141). -/
inductive WaitResult : Type where
  | ok : WaitResult
  | canceled : WaitResult
  | eintrErr : WaitResult
  | errSelect (e : String) : WaitResult
  | errFdTooLarge (fd : Nat) : WaitResult
  | errNoFdSet : WaitResult
deriving DecidableEq

/-- `waitForRead` (inputreader_select.go lines 109-141): refuse with an
error when the larger descriptor is at or above `FD_SETSIZE` (before
any syscall); otherwise perform the `select` call (its outcome given by
the oracle `o`) and dispatch: abort descriptor ready → canceled, reader
descriptor ready → ok, neither → corrupt-state error. -/
def waitForRead (readerFd abortFd : Nat) (o : SelectOutcome) : WaitResult :=
  let maxFd := max readerFd abortFd
  if FD_SETSIZE ≤ maxFd then .errFdTooLarge maxFd
  else
    match o with
    | .eintr => .eintrErr
    | .selectErr e => .errSelect e
    | .ready abortReady readerReady =>
        if abortReady then .canceled
        else if readerReady then .ok
        else .errNoFdSet

/-- Result of a `ReadInput` call of either cancelable strategy. `msg m`
models the successful `[]Msg{msg}` return; the error constructors
mirror the source's error returns; `blocked` models a call still
blocked in the wait primitive (no oracle outcome left). -/
inductive ReadResult : Type where
  | msg (m : Msg) : ReadResult
  | errCanceled : ReadResult
  | errReadingCancelSignal : ReadResult
  | errDecode (e : String) : ReadResult
  | errSelect (e : String) : ReadResult
  | errFdTooLarge (fd : Nat) : ReadResult
  | errNoFdSet : ReadResult
  | errKevent (e : String) : ReadResult
  | errUnknown : ReadResult
  | blocked : ReadResult

/-- The retry loop of `selectInputReader.ReadInput` (inputreader_select.go
lines 52-77): call `waitForRead` (consuming one `select` oracle outcome
per syscall), retry on `EINTR`, drain one byte from the signal pipe and
return the canceled error on cancellation (or the drain-failure error
when that read fails), decode on readiness, and propagate every other
error. The second component is the number of bytes drained from the
cancel-signal pipe. With no oracle outcome left the call is considered
still blocked, except that the descriptor-ceiling check of
`waitForRead` fires before any syscall. -/
def selectReadAux (readerFd sigFd : Nat) (drainOk : Bool)
    (decode : Except String Msg) : List SelectOutcome → ReadResult × Nat
  | [] =>
      if FD_SETSIZE ≤ max readerFd sigFd then
        (.errFdTooLarge (max readerFd sigFd), 0)
      else (.blocked, 0)
  | o :: rest =>
      match waitForRead readerFd sigFd o with
      | .eintrErr => selectReadAux readerFd sigFd drainOk decode rest
      | .canceled =>
          if drainOk then (.errCanceled, 1) else (.errReadingCancelSignal, 0)
      | .ok =>
          match decode with
          | .ok m => (.msg m, 0)
          | .error e => (.errDecode e, 0)
      | .errSelect e => (.errSelect e, 0)
      | .errFdTooLarge fd => (.errFdTooLarge fd, 0)
      | .errNoFdSet => (.errNoFdSet, 0)

/-- `selectInputReader.ReadInput` (inputreader_select.go lines 47-78):
return the canceled error at once when the cancellation flag is already
set, otherwise run the wait-and-decode loop. -/
def selectReadInput (cancelled : Bool) (readerFd sigFd : Nat)
    (drainOk : Bool) (decode : Except String Msg)
    (outcomes : List SelectOutcome) : ReadResult × Nat :=
  if cancelled then (.errCanceled, 0)
  else selectReadAux readerFd sigFd drainOk decode outcomes

/-- Result of one `epoll_wait` syscall as seen by `epollInputReader.wait`:
interrupted, failed, or returned one event on the given descriptor. -/
inductive EpollOutcome : Type where
  | eintr : EpollOutcome
  | epollErr (e : String) : EpollOutcome
  | event (fd : Nat) : EpollOutcome

/-- Result of `epollInputReader.wait` (inputreader_linux.go lines
133-157). -/
inductive EpollWaitResult : Type where
  | ok : EpollWaitResult
  | canceled : EpollWaitResult
  | errKevent (e : String) : EpollWaitResult
  | errUnknown : EpollWaitResult
  | blocked : EpollWaitResult
deriving DecidableEq

/-- `epollInputReader.wait` (inputreader_linux.go lines 133-157): retry
`epoll_wait` on `EINTR`, fail on another syscall error, and otherwise
dispatch on the reported event's descriptor: the input file's → ok, the
cancel-signal pipe's → canceled, any other → unknown error. -/
def epollWait (fileFd sigFd : Nat) : List EpollOutcome → EpollWaitResult
  | [] => .blocked
  | EpollOutcome.eintr :: rest => epollWait fileFd sigFd rest
  | EpollOutcome.epollErr e :: _ => .errKevent e
  | EpollOutcome.event fd :: _ =>
      if fd = fileFd then .ok
      else if fd = sigFd then .canceled
      else .errUnknown

/-- `epollInputReader.ReadInput` (inputreader_linux.go lines 71-96):
return the canceled error at once when the cancellation flag is already
set; otherwise wait, and on cancellation drain one byte from the signal
pipe and return the canceled error (or the drain-failure error), on
readiness decode, and propagate every other error. The second component
is the number of bytes drained from the cancel-signal pipe. -/
def epollReadInput (cancelled : Bool) (fileFd sigFd : Nat) (drainOk : Bool)
    (decode : Except String Msg) (outcomes : List EpollOutcome) :
    ReadResult × Nat :=
  if cancelled then (.errCanceled, 0)
  else
    match epollWait fileFd sigFd outcomes with
    | .ok =>
        match decode with
        | .ok m => (.msg m, 0)
        | .error e => (.errDecode e, 0)
    | .canceled =>
        if drainOk then (.errCanceled, 1) else (.errReadingCancelSignal, 0)
    | .errKevent e => (.errKevent e, 0)
    | .errUnknown => (.errUnknown, 0)
    | .blocked => (.blocked, 0)

/-- The `errMsgs` list built by `selectInputReader.Close`
(inputreader_select.go lines 88-107): each release step is performed
and its failure message appended regardless of the earlier steps.
`w`/`r` are the errors of closing the cancel-signal writer and reader
(`none` = success). -/
def selectCloseMsgs (w r : Option String) : List String :=
  (match w with
   | some e => ["closing cancel signal writer: " ++ e]
   | none => []) ++
  (match r with
   | some e => ["closing cancel signal reader: " ++ e]
   | none => [])

/-- `selectInputReader.Close` (inputreader_select.go lines 88-107):
returns `nil` when no release step failed, otherwise one combined
error joining every failure message with `", "`. -/
def selectClose (w r : Option String) : Option String :=
  let msgs := selectCloseMsgs w r
  if 0 < msgs.length then some (String.intercalate ", " msgs) else none

/-- The `errMsgs` list built by `epollInputReader.Close`
(inputreader_linux.go lines 106-131): the epoll descriptor, the
cancel-signal writer and the cancel-signal reader are all closed, each
failure appended regardless of the earlier steps. -/
def epollCloseMsgs (ep w r : Option String) : List String :=
  (match ep with
   | some e => ["closing epoll: " ++ e]
   | none => []) ++
  (match w with
   | some e => ["closing cancel signal writer: " ++ e]
   | none => []) ++
  (match r with
   | some e => ["closing cancel signal reader: " ++ e]
   | none => [])

/-- `epollInputReader.Close` (inputreader_linux.go lines 106-131). -/
def epollClose (ep w r : Option String) : Option String :=
  let msgs := epollCloseMsgs ep w r
  if 0 < msgs.length then some (String.intercalate ", " msgs) else none

/-- Concrete update function used by counterexamples: increments the
model and returns the nil command. -/
def cUpdNil : Msg → Nat → Nat × Cmd := fun _ m => (m + 1, none)

/-- Concrete single-line view used by counterexamples. -/
def cVw : Nat → String := fun _ => "v"

/-- Concrete three-line view (no trailing newline) used by the render
counterexample. -/
def cView3 : Unit → String := fun _ => "a\nb\nc"

/-- Concrete one-line view used by the render counterexample. -/
def cView1 : Unit → String := fun _ => "x"

/-- Helper: the dispatcher goroutine starts exactly the non-nil commands
of its queue, in order. -/
theorem processCmds_eq_filterMap : ∀ q : List Cmd, processCmds q = q.filterMap id
  | [] => rfl
  | none :: rest => by
      simp [processCmds, processCmds_eq_filterMap rest]
  | some c :: rest => by
      simp [processCmds, processCmds_eq_filterMap rest]

/-- Helper: running the main loop over the pump's sends for a run of
successful reads followed by a failed read yields the failure as the
loop result, with exactly the successful reads' key messages passed to
`Update`, in order. -/
theorem runLoop_pump_fail {M : Type} (upd : Msg → M → M × Cmd)
    (vw : M → String) (e : String) (restReads : List ReadKeyOutcome) :
    ∀ (goodKeys : List Nat) (model : M) (lines : Nat),
      (runLoop upd vw model lines (pumpSends
        (goodKeys.map ReadKeyOutcome.ok ++ ReadKeyOutcome.fail e :: restReads))).result
          = LoopResult.errored e ∧
      (runLoop upd vw model lines (pumpSends
        (goodKeys.map ReadKeyOutcome.ok ++ ReadKeyOutcome.fail e :: restReads))).updates
          = goodKeys.map Msg.key
  | [], model, lines => by
      simp [pumpSends, runLoop]
  | k :: ks, model, lines => by
      have ih := runLoop_pump_fail upd vw e restReads ks
        (upd (Msg.key k) model).1 (render vw (upd (Msg.key k) model).1 lines).2
      simp [pumpSends, runLoop, ih.1, ih.2]

/-- Claim C10: `Batch` applied to an empty command list returns the nil
command, which the dispatcher never starts; for a non-empty list the
produced command returns a batch message holding exactly the given
commands in the given order. -/
theorem batch_constructor_spec :
    Batch [] = none ∧
    processCmds [Batch []] = [] ∧
    (∀ (c : Cmd) (cs : List Cmd),
      Batch (c :: cs) = some (fun _ => batchMsg (c :: cs))) ∧
    (∀ (c : Cmd) (cs : List Cmd),
      (Batch (c :: cs)).map (fun f => f ()) = some (batchMsg (c :: cs))) :=
  ⟨rfl, rfl, fun _ _ => rfl, fun _ _ => rfl⟩

/-- Claim C4: on a batch message the main loop passes nothing to `Update`
(the update trace is that of the rest of the run), sends every
contained command onto the dispatcher's queue individually in the
batch's order, leaves the model unchanged (the run continues from the
same model), and performs no repaint for that message. -/
theorem batch_msg_dispatch {M : Type} (upd : Msg → M → M × Cmd)
    (vw : M → String) (model : M) (lines : Nat) (bs : List Cmd)
    (rest : List Send) :
    (runLoop upd vw model lines (Send.toMsgs (Msg.batch bs) :: rest)).updates =
      (runLoop upd vw model lines rest).updates ∧
    (runLoop upd vw model lines (Send.toMsgs (Msg.batch bs) :: rest)).enqueued =
      bs ++ (runLoop upd vw model lines rest).enqueued ∧
    (runLoop upd vw model lines (Send.toMsgs (Msg.batch bs) :: rest)).renders =
      (runLoop upd vw model lines rest).renders ∧
    (runLoop upd vw model lines (Send.toMsgs (Msg.batch bs) :: rest)).finalModel =
      (runLoop upd vw model lines rest).finalModel ∧
    (runLoop upd vw model lines (Send.toMsgs (Msg.batch bs) :: rest)).result =
      (runLoop upd vw model lines rest).result :=
  ⟨rfl, rfl, rfl, rfl, rfl⟩

/-- Claim C7: on a quit message the main loop closes the shared done
channel (stopping the background activities), returns success, the
deferred terminal restore runs, no `Update` is invoked on the quit
message or afterwards, no repaint occurs, and nothing further is
enqueued. -/
theorem quit_msg_terminates {M : Type} (upd : Msg → M → M × Cmd)
    (vw : M → String) (model : M) (lines : Nat) (rest : List Send) :
    (runLoop upd vw model lines (Send.toMsgs Msg.quit :: rest)).result =
      LoopResult.quitOk ∧
    (runLoop upd vw model lines (Send.toMsgs Msg.quit :: rest)).doneClosed = true ∧
    terminalReleased
      (runLoop upd vw model lines (Send.toMsgs Msg.quit :: rest)).result = true ∧
    (runLoop upd vw model lines (Send.toMsgs Msg.quit :: rest)).updates = [] ∧
    (runLoop upd vw model lines (Send.toMsgs Msg.quit :: rest)).renders = [] ∧
    (runLoop upd vw model lines (Send.toMsgs Msg.quit :: rest)).enqueued = [] :=
  ⟨rfl, rfl, rfl, rfl, rfl, rfl⟩

/-- Claim C3 counterexample: with an update function returning the nil
command, processing one ordinary message makes the loop send that nil
command onto the command dispatcher's queue — the enqueued trace is
`[none]`, refuting that only non-nil commands are ever enqueued. -/
theorem nil_cmd_enqueued_cx :
    (runLoop cUpdNil cVw 0 0 [Send.toMsgs (Msg.custom 7)]).updates =
      [Msg.custom 7] ∧
    (runLoop cUpdNil cVw 0 0 [Send.toMsgs (Msg.custom 7)]).enqueued = [none] :=
  ⟨rfl, rfl⟩

/-- Claim C3 (amended): on a non-quit, non-batch message the loop invokes
`Update` on that message and the current model, continues from the
returned model, sends the returned command — nil included — onto the
dispatcher's queue, and repaints the new model; the dispatcher then
starts exactly the non-nil commands of its queue, so nil commands are
dropped at the dispatcher rather than at enqueue time. -/
theorem update_branch_amended {M : Type} (upd : Msg → M → M × Cmd)
    (vw : M → String) (model : M) (lines : Nat) (rest : List Send)
    (k n : Nat) :
    (runLoop upd vw model lines (Send.toMsgs (Msg.key k) :: rest) =
      (let p := upd (Msg.key k) model
       let r := render vw p.1 lines
       let t := runLoop upd vw p.1 r.2 rest
       { t with updates := Msg.key k :: t.updates,
                enqueued := p.2 :: t.enqueued,
                renders := r.1 :: t.renders })) ∧
    (runLoop upd vw model lines (Send.toMsgs (Msg.custom n) :: rest) =
      (let p := upd (Msg.custom n) model
       let r := render vw p.1 lines
       let t := runLoop upd vw p.1 r.2 rest
       { t with updates := Msg.custom n :: t.updates,
                enqueued := p.2 :: t.enqueued,
                renders := r.1 :: t.renders })) ∧
    (∀ q : List Cmd, processCmds q = q.filterMap id) ∧
    (∀ (c : Unit → Msg) (q : List Cmd),
      processCmds (none :: q) = processCmds q ∧
      processCmds (some c :: q) = c :: processCmds q) :=
  ⟨rfl, rfl, processCmds_eq_filterMap, fun _ _ => ⟨rfl, rfl⟩⟩

/-- Claim C2: the input pump sends exactly one decoded key message per
successful read; on a failed read it sends the error on the error
channel (and the zero-valued key message it also attempts to send is
never received, the loop having returned); the main loop run over the
pump's sends returns the read error and invokes `Update` exactly on the
messages of the successful reads preceding the failure, in order. -/
theorem input_pump_error_propagation {M : Type} (upd : Msg → M → M × Cmd)
    (vw : M → String) (model : M) (lines : Nat) (goodKeys : List Nat)
    (e : String) (restReads : List ReadKeyOutcome) :
    (∀ k rest, pumpSends (ReadKeyOutcome.ok k :: rest) =
        Send.toMsgs (Msg.key k) :: pumpSends rest) ∧
    (∀ e' rest, pumpSends (ReadKeyOutcome.fail e' :: rest) =
        Send.toErrs e' :: Send.toMsgs (Msg.key 0) :: pumpSends rest) ∧
    (runLoop upd vw model lines (pumpSends
      (goodKeys.map ReadKeyOutcome.ok ++ ReadKeyOutcome.fail e :: restReads))).result
        = LoopResult.errored e ∧
    (runLoop upd vw model lines (pumpSends
      (goodKeys.map ReadKeyOutcome.ok ++ ReadKeyOutcome.fail e :: restReads))).updates
        = goodKeys.map Msg.key :=
  ⟨fun _ _ => rfl, fun _ _ => rfl,
   (runLoop_pump_fail upd vw e restReads goodKeys model lines).1,
   (runLoop_pump_fail upd vw e restReads goodKeys model lines).2⟩

/-- Helper: when the target descriptor is below the ceiling but the signal
pipe's descriptor is at or above it, every `ReadInput` call of the
select strategy fails with the descriptor-ceiling error, before any
syscall. -/
theorem selectRead_sigFd_too_large (readerFd sigFd : Nat) (drainOk : Bool)
    (decode : Except String Msg) (hr : readerFd < FD_SETSIZE)
    (hs : FD_SETSIZE ≤ sigFd) :
    ∀ outcomes, (selectReadInput false readerFd sigFd drainOk decode
      outcomes).1 = ReadResult.errFdTooLarge sigFd := by
  have hmax : max readerFd sigFd = sigFd :=
    Nat.max_eq_right (le_trans (le_of_lt hr) hs)
  intro outcomes
  cases outcomes with
  | nil => simp [selectReadInput, selectReadAux, hmax, hs]
  | cons o rest => simp [selectReadInput, selectReadAux, waitForRead, hmax, hs]

/-- Helper: when both descriptors are below the ceiling, no `ReadInput`
call of the select strategy ever returns the descriptor-ceiling
error. -/
theorem selectRead_fds_ok (readerFd sigFd : Nat) (drainOk : Bool)
    (decode : Except String Msg) (hr : readerFd < FD_SETSIZE)
    (hs : sigFd < FD_SETSIZE) :
    ∀ (outcomes : List SelectOutcome) (fd : Nat),
      (selectReadInput false readerFd sigFd drainOk decode outcomes).1 ≠
        ReadResult.errFdTooLarge fd := by
  have hmax : ¬ FD_SETSIZE ≤ max readerFd sigFd :=
    Nat.not_le.mpr (Nat.max_lt.mpr ⟨hr, hs⟩)
  have aux : ∀ (outcomes : List SelectOutcome) (fd : Nat),
      (selectReadAux readerFd sigFd drainOk decode outcomes).1 ≠
        ReadResult.errFdTooLarge fd := by
    intro outcomes
    induction outcomes with
    | nil => intro fd; simp [selectReadAux, hmax]
    | cons o rest ih =>
        intro fd
        cases o with
        | eintr => simpa [selectReadAux, waitForRead, hmax] using ih fd
        | selectErr e => simp [selectReadAux, waitForRead, hmax]
        | ready ab rb =>
            cases ab <;> cases rb <;> cases drainOk <;> cases decode <;>
              simp [selectReadAux, waitForRead, hmax]
  intro outcomes fd
  simpa [selectReadInput] using aux outcomes fd

/-- Claim C1 counterexample: with a file input on descriptor 3 and the
cancel-signal pipe on descriptor 1024 (= `FD_SETSIZE`), the constructor
still selects the select strategy — it cannot consult the pipe's
descriptor, the pipe being created after the check — and the selected
strategy's `ReadInput` then fails with the descriptor-ceiling error
even with input data ready, and likewise before any syscall outcome. -/
theorem select_ctor_ignores_signal_fd_cx :
    newSelectInputReader true 3 = ReaderChoice.select ∧
    (selectReadInput false 3 1024 true (Except.ok (Msg.key 0))
      [SelectOutcome.ready false true]).1 = ReadResult.errFdTooLarge 1024 ∧
    (selectReadInput false 3 1024 true (Except.ok (Msg.key 0)) []).1 =
      ReadResult.errFdTooLarge 1024 :=
  ⟨rfl, rfl, rfl⟩

/-- Claim C1 (amended): the constructor falls back to the non-cancelable
strategy exactly when the input is not an OS file or the target
stream's descriptor is at or above `FD_SETSIZE`; the signal pipe's
descriptor is not checked at construction, and when it is at or above
the ceiling every `ReadInput` call of the selected strategy fails with
the descriptor-ceiling error rather than falling back, while with both
descriptors below the ceiling no `ReadInput` call ever fails with that
error. -/
theorem select_ctor_fd_check_amended (isFile : Bool) (readerFd sigFd fd : Nat)
    (drainOk : Bool) (decode : Except String Msg)
    (outcomes : List SelectOutcome) :
    (newSelectInputReader isFile readerFd = ReaderChoice.fallback ↔
      isFile = false ∨ FD_SETSIZE ≤ readerFd) ∧
    (readerFd < FD_SETSIZE → FD_SETSIZE ≤ sigFd →
      (selectReadInput false readerFd sigFd drainOk decode outcomes).1 =
        ReadResult.errFdTooLarge sigFd) ∧
    (readerFd < FD_SETSIZE → sigFd < FD_SETSIZE →
      (selectReadInput false readerFd sigFd drainOk decode outcomes).1 ≠
        ReadResult.errFdTooLarge fd) := by
  refine ⟨?_, ?_, ?_⟩
  · cases isFile <;> by_cases h : FD_SETSIZE ≤ readerFd <;>
      simp [newSelectInputReader, h]
  · intro hr hs
    exact selectRead_sigFd_too_large readerFd sigFd drainOk decode hr hs outcomes
  · intro hr hs
    exact selectRead_fds_ok readerFd sigFd drainOk decode hr hs outcomes fd

/-- Claim C1 amended, witness: the three conjuncts at concrete inputs —
a non-file input on descriptor 3 falls back; with target descriptor 3
and signal descriptor 1024 a read fails with the ceiling error; with
descriptors 3 and 4 a read never returns the ceiling error. -/
theorem select_ctor_fd_check_amended_witness :
    (newSelectInputReader false 3 = ReaderChoice.fallback ↔
      false = false ∨ FD_SETSIZE ≤ 3) ∧
    (selectReadInput false 3 1024 true (Except.ok (Msg.key 0))
      [SelectOutcome.eintr]).1 = ReadResult.errFdTooLarge 1024 ∧
    (selectReadInput false 3 4 true (Except.ok (Msg.key 0))
      [SelectOutcome.ready true true]).1 ≠ ReadResult.errFdTooLarge 7 := by
  refine ⟨?_, ?_, ?_⟩
  · exact (select_ctor_fd_check_amended false 3 1024 7 true
      (Except.ok (Msg.key 0)) []).1
  · exact (select_ctor_fd_check_amended true 3 1024 7 true
      (Except.ok (Msg.key 0)) [SelectOutcome.eintr]).2.1
      (by decide) (by decide)
  · exact (select_ctor_fd_check_amended true 3 4 7 true
      (Except.ok (Msg.key 0)) [SelectOutcome.ready true true]).2.2
      (by decide) (by decide)

/-- Helper: in the select strategy, after any number of interrupted
syscalls, a wait reporting the abort descriptor ready — the target
descriptor's simultaneous readiness notwithstanding — drains one byte
from the signal pipe and returns the canceled error. -/
theorem selectReadAux_cancel (readerFd sigFd : Nat)
    (decode : Except String Msg) (hmax : ¬ FD_SETSIZE ≤ max readerFd sigFd)
    (rb : Bool) (rest : List SelectOutcome) :
    ∀ n, selectReadAux readerFd sigFd true decode
      (List.replicate n SelectOutcome.eintr ++
        SelectOutcome.ready true rb :: rest) = (ReadResult.errCanceled, 1)
  | 0 => by simp [selectReadAux, waitForRead, hmax]
  | n + 1 => by
      simpa [List.replicate_succ, selectReadAux, waitForRead, hmax] using
        selectReadAux_cancel readerFd sigFd decode hmax rb rest n

/-- Helper: in the epoll strategy, after any number of interrupted
syscalls, a wait whose reported event carries the signal pipe's
descriptor is a cancellation. -/
theorem epollWait_cancel (fileFd sigFd : Nat) (hne : sigFd ≠ fileFd)
    (rest : List EpollOutcome) :
    ∀ m, epollWait fileFd sigFd (List.replicate m EpollOutcome.eintr ++
      EpollOutcome.event sigFd :: rest) = EpollWaitResult.canceled
  | 0 => by simp [epollWait, hne]
  | m + 1 => by
      simpa [List.replicate_succ, epollWait] using
        epollWait_cancel fileFd sigFd hne rest m

/-- Claim C5: a `ReadInput` call of either cancelable strategy that is
woken by the cancel signal rather than by data drains exactly one byte
from the signal pipe and returns the canceled error, never decoded
data; in the select strategy this holds even when the wait reports the
target descriptor ready simultaneously, the abort descriptor being
checked first. -/
theorem cancel_wakeup_drains_and_cancels (readerFd sigFd fileFd sigFd2 : Nat)
    (decode decode2 : Except String Msg) (n m : Nat) (rb : Bool)
    (rest : List SelectOutcome) (rest2 : List EpollOutcome)
    (hr : readerFd < FD_SETSIZE) (hs : sigFd < FD_SETSIZE)
    (hne : sigFd2 ≠ fileFd) :
    selectReadInput false readerFd sigFd true decode
      (List.replicate n SelectOutcome.eintr ++
        SelectOutcome.ready true rb :: rest) = (ReadResult.errCanceled, 1) ∧
    epollReadInput false fileFd sigFd2 true decode2
      (List.replicate m EpollOutcome.eintr ++
        EpollOutcome.event sigFd2 :: rest2) = (ReadResult.errCanceled, 1) := by
  have hmax : ¬ FD_SETSIZE ≤ max readerFd sigFd :=
    Nat.not_le.mpr (Nat.max_lt.mpr ⟨hr, hs⟩)
  refine ⟨?_, ?_⟩
  · simpa [selectReadInput] using
      selectReadAux_cancel readerFd sigFd decode hmax rb rest n
  · simp [epollReadInput, epollWait_cancel fileFd sigFd2 hne rest2 m]

/-- Claim C5, witness: concrete cancel wakeups — a select wait after one
interrupted syscall with both descriptors ready, and an epoll wait
reporting the signal descriptor — each drain one byte and return the
canceled error. -/
theorem cancel_wakeup_drains_and_cancels_witness :
    selectReadInput false 0 1 true (Except.ok (Msg.key 0))
      [SelectOutcome.eintr, SelectOutcome.ready true true] =
      (ReadResult.errCanceled, 1) ∧
    epollReadInput false 0 1 true (Except.ok (Msg.key 0))
      [EpollOutcome.event 1] = (ReadResult.errCanceled, 1) :=
  cancel_wakeup_drains_and_cancels 0 1 0 1 (Except.ok (Msg.key 0))
    (Except.ok (Msg.key 0)) 1 0 true [] [] (by decide) (by decide) (by decide)

/-- Claim C8: with the cancellation flag already set, a `ReadInput` call
of either cancelable strategy returns the canceled error at once — for
every possible syscall-outcome sequence and decoder result, so no wait
is performed and nothing is decoded — and drains nothing. -/
theorem readinput_cancelled_flag_immediate (readerFd sigFd fileFd sigFd2 : Nat)
    (drainOk drainOk2 : Bool) (decode decode2 : Except String Msg)
    (outcomes : List SelectOutcome) (outcomes2 : List EpollOutcome) :
    selectReadInput true readerFd sigFd drainOk decode outcomes =
      (ReadResult.errCanceled, 0) ∧
    epollReadInput true fileFd sigFd2 drainOk2 decode2 outcomes2 =
      (ReadResult.errCanceled, 0) :=
  ⟨rfl, rfl⟩

/-- Claim C9: `Close` of either cancelable strategy returns nil exactly
when every release step succeeded; each release step's failure message
appears in the aggregated list regardless of the other steps' outcomes
(every step is attempted), and the returned error is the combination of
every failure message, joined with a comma. -/
theorem close_aggregates_errors (s : String) (ep w r : Option String) :
    (selectClose w r = none ↔ w = none ∧ r = none) ∧
    (epollClose ep w r = none ↔ ep = none ∧ w = none ∧ r = none) ∧
    (∀ r', ("closing cancel signal writer: " ++ s) ∈
      selectCloseMsgs (some s) r') ∧
    (∀ w', ("closing cancel signal reader: " ++ s) ∈
      selectCloseMsgs w' (some s)) ∧
    (∀ w' r', ("closing epoll: " ++ s) ∈ epollCloseMsgs (some s) w' r') ∧
    (∀ ep' r', ("closing cancel signal writer: " ++ s) ∈
      epollCloseMsgs ep' (some s) r') ∧
    (∀ ep' w', ("closing cancel signal reader: " ++ s) ∈
      epollCloseMsgs ep' w' (some s)) ∧
    (selectClose w r = if selectCloseMsgs w r = [] then none
      else some (String.intercalate ", " (selectCloseMsgs w r))) ∧
    (epollClose ep w r = if epollCloseMsgs ep w r = [] then none
      else some (String.intercalate ", " (epollCloseMsgs ep w r))) := by
  refine ⟨?_, ?_, ?_, ?_, ?_, ?_, ?_, ?_, ?_⟩
  · cases w <;> cases r <;> simp [selectClose, selectCloseMsgs]
  · cases ep <;> cases w <;> cases r <;> simp [epollClose, epollCloseMsgs]
  · intro r'; cases r' <;> simp [selectCloseMsgs]
  · intro w'; cases w' <;> simp [selectCloseMsgs]
  · intro w' r'; cases w' <;> cases r' <;> simp [epollCloseMsgs]
  · intro ep' r'; cases ep' <;> cases r' <;> simp [epollCloseMsgs]
  · intro ep' w'; cases ep' <;> cases w' <;> simp [epollCloseMsgs]
  · cases w <;> cases r <;> simp [selectClose, selectCloseMsgs]
  · cases ep <;> cases w <;> cases r <;> simp [epollClose, epollCloseMsgs]

/-- Helper: the text of a written view always has one line more than its
count of `"\r\n"` occurrences — the quantity `Program.render` records. -/
theorem specLineSegments_eq_countCRLF :
    ∀ l : List Char, specLineSegments l = countCRLF l + 1
  | [] => rfl
  | [_] => rfl
  | c1 :: c2 :: rest => by
      by_cases h : c1 = '\r' ∧ c2 = '\n'
      · simp [specLineSegments, countCRLF, h,
          specLineSegments_eq_countCRLF rest]
      · simp [specLineSegments, countCRLF, h,
          specLineSegments_eq_countCRLF (c2 :: rest)]

/-- Claim C6 counterexample: after painting the three-line view
`"a\nb\nc"` the written text is `"a\r\nb\r\nc"`, which consists of 3
lines, but the recorded count is 2 — not the number of lines written —
and the following repaint invokes the erase with argument 2, not 3. -/
theorem render_line_count_cx :
    (render cView3 () 0).1.written = "a\r\nb\r\nc" ∧
    specLineCount (render cView3 () 0).1.written = 3 ∧
    (render cView3 () 0).2 = 2 ∧
    (render cView3 () 0).2 ≠ specLineCount (render cView3 () 0).1.written ∧
    (render cView1 () (render cView3 () 0).2).1.cleared = some 2 := by
  refine ⟨by decide, by decide, by decide, by decide, by decide⟩

/-- Claim C6 (amended): every repaint writes the view text with each
newline normalized to `"\r\n"`, invokes the erase with exactly the
recorded previous count when it is positive and skips it when it is
zero, and records for the next cycle the number of `"\r\n"` occurrences
in the written text — one fewer than the number of lines written, so a
repaint after a three-line view without trailing newline invokes the
erase with argument 2. -/
theorem render_amended {M : Type} (vw : M → String) (m : M) (n : Nat) :
    (render vw m n).1.written = normalizeView (vw m) ∧
    (render vw m n).1.cleared = (if 0 < n then some n else none) ∧
    (render vw m n).2 = countCRLFs (normalizeView (vw m)) ∧
    (render vw m n).2 + 1 = specLineCount (normalizeView (vw m)) :=
  ⟨rfl, rfl, rfl,
   (specLineSegments_eq_countCRLF (normalizeView (vw m)).data).symm⟩
